import Mathlib

/-!
Shallow embedding of the order-execution layer of the Hyperliquid_Agent
repository: `tradingagents/execution/{base_executor,simulated_executor,
hyperliquid_executor}.py`.  Python floats are modelled as rationals (ℚ),
Python dicts keyed by asset as functions `String → Option _`, and the
live venue's network behaviour as an explicit input (`Fetch`), with an
exception modelled as `Fetch.raises` / a propagated exception as
`Except.error`.
-/

/-- Order side, the `side` argument of `place_order`. -/
inductive Side
  | buy
  | sell
deriving DecidableEq, Repr

/-- Order type, the `order_type` argument of `place_order`. -/
inductive OrderType
  | market
  | limit
deriving DecidableEq, Repr

/-- The argument bundle of `place_order` (asset, side, size, order_type,
price, reduce_only). -/
structure OrderReq where
  asset : String
  side : Side
  size : ℚ
  order_type : OrderType
  price : Option ℚ
  reduce_only : Bool
deriving DecidableEq, Repr

/-- The dict returned by `place_order` on both backends.  `ι` is the type
of backend order identifiers (uuid strings for the simulator, venue oids
for the live adapter) and `ε` the type of error payloads. -/
structure ExecResult (ι ε : Type) where
  success : Bool
  order_id : Option ι
  filled_size : ℚ
  average_price : ℚ
  status : String
  timestamp : Nat
  error : Option ε
deriving DecidableEq, Repr

/-- The informational content of the simulator's f-string error message
`"Insufficient balance. Need $..., have $..."`: it names the required
cost and the available balance. -/
inductive SimError
  | insufficientBalance (need : ℚ) (avail : ℚ)
deriving DecidableEq, Repr

/-- One entry of `SimulatedExecutor.positions`:
`{"size": float, "entry_price": float}`. -/
structure PosRec where
  size : ℚ
  entry_price : ℚ
deriving DecidableEq, Repr

/-- The dict returned by `get_position` on both backends. -/
structure PositionView where
  asset : String
  size : ℚ
  entry_price : ℚ
  unrealized_pnl : ℚ
  liquidation_price : Option ℚ
  leverage : ℚ
deriving DecidableEq, Repr

/-- The mutable state of a `SimulatedExecutor` instance.  An absent key
of the Python `positions` dict is `none`. -/
structure SimState where
  balance : ℚ
  initial_balance : ℚ
  slippage : ℚ
  positions : String → Option PosRec
  order_history : List (ExecResult String SimError)
  trade_count : Nat

/-- `SimulatedExecutor.__init__(initial_balance, slippage)`. -/
def SimState.init (initial_balance slippage : ℚ) : SimState :=
  { balance := initial_balance
    initial_balance := initial_balance
    slippage := slippage
    positions := fun _ => none
    order_history := []
    trade_count := 0 }

/-- `price if price else 50000.0`: Python truthiness sends both `None`
and `0.0` to the default BTC price. -/
def refPrice (price : Option ℚ) : ℚ :=
  match price with
  | some p => if p = 0 then 50000 else p
  | none => 50000

/-- Write-through update of the positions dict at one key. -/
def updatePositions (ps : String → Option PosRec) (a : String) (r : PosRec) :
    String → Option PosRec :=
  fun x => if x = a then some r else ps x

/-- The `order_type == "market"` branch of `SimulatedExecutor.place_order`.
The fresh uuid `oid` and the timestamp `ts` are passed in explicitly. -/
def SimState.market_order (s : SimState) (o : OrderReq) (oid : String) (ts : Nat) :
    ExecResult String SimError × SimState :=
  let execution_price :=
    if o.side = .buy then refPrice o.price * (1 + s.slippage)
    else refPrice o.price * (1 - s.slippage)
  let cost := o.size * execution_price
  if o.side = .buy ∧ cost > s.balance then
    (⟨false, some oid, 0, 0, "rejected", ts,
      some (SimError.insufficientBalance cost s.balance)⟩, s)
  else
    -- `if asset not in self.positions: self.positions[asset] = {"size": 0, "entry_price": 0}`
    let current_position := (s.positions o.asset).getD ⟨0, 0⟩
    let result : ExecResult String SimError :=
      ⟨true, some oid, o.size, execution_price, "filled", ts, none⟩
    if o.side = .buy then
      let total_size := current_position.size + o.size
      let new_entry :=
        if total_size > 0 then
          (current_position.size * current_position.entry_price
            + o.size * execution_price) / total_size
        else execution_price
      (result,
        { s with
          positions := updatePositions s.positions o.asset ⟨total_size, new_entry⟩
          balance := s.balance - cost
          trade_count := s.trade_count + 1
          order_history := s.order_history ++ [result] })
    else
      -- sell: only the "size" key is reassigned; "entry_price" is kept.
      (result,
        { s with
          positions := updatePositions s.positions o.asset
            ⟨current_position.size - o.size, current_position.entry_price⟩
          balance := s.balance + cost
          trade_count := s.trade_count + 1
          order_history := s.order_history ++ [result] })

/-- `SimulatedExecutor.place_order`.  The limit branch of the source
re-enters `place_order` with `order_type="market"` and the same remaining
arguments; that recursive call immediately takes the market branch, which
is inlined here. -/
def SimState.place_order (s : SimState) (o : OrderReq) (oid : String) (ts : Nat) :
    ExecResult String SimError × SimState :=
  match o.order_type with
  | .market => s.market_order o oid ts
  | .limit => s.market_order { o with order_type := .market } oid ts

/-- `SimulatedExecutor.get_position`. -/
def SimState.get_position (s : SimState) (asset : String) : PositionView :=
  match s.positions asset with
  | none => ⟨asset, 0, 0, 0, none, 1⟩
  | some position =>
    let current_price : ℚ := 50000
    let unrealized_pnl :=
      if position.size ≠ 0 then (current_price - position.entry_price) * position.size
      else 0
    ⟨asset, position.size, position.entry_price, unrealized_pnl, none, 1⟩

/-- Size of the stored position record for an asset (0 when absent). -/
def SimState.posSize (s : SimState) (a : String) : ℚ :=
  ((s.positions a).getD ⟨0, 0⟩).size

/-- Entry price of the stored position record for an asset (0 when absent). -/
def SimState.posEntry (s : SimState) (a : String) : ℚ :=
  ((s.positions a).getD ⟨0, 0⟩).entry_price

/-- Run a list of order requests in sequence, collecting the results. -/
def SimState.run_orders (s : SimState) :
    List OrderReq → List (ExecResult String SimError) × SimState
  | [] => ([], s)
  | o :: rest =>
    let step := s.place_order o "" 0
    let tail := step.2.run_orders rest
    (step.1 :: tail.1, tail.2)

/-- The result shape of `BaseExecutor.close_position`: either the
two-key failure dict `{"success": False, "error": ...}`, or whatever the
backend's `place_order` returned. -/
inductive CloseResult (ρ : Type)
  | failure (success : Bool) (error : String)
  | placed (r : ρ)
deriving DecidableEq

/-- `BaseExecutor.close_position`, the shared default implementation,
parametrised by the backend's `get_position` and `place_order` methods
(`ρ` is the backend's order-result type). -/
def close_position {ρ : Type}
    (get_position : String → PositionView)
    (place_order : String → Side → ℚ → OrderType → Option ℚ → Bool → ρ)
    (asset : String) : CloseResult ρ :=
  let position := get_position asset
  if position.size = 0 then
    .failure false "No position to close"
  else
    let side := if position.size > 0 then Side.sell else Side.buy
    let size := |position.size|
    .placed (place_order asset side size .market none true)

/-! ## Live venue backend (`hyperliquid_executor.py`)

The remote venue is modelled as an explicit input: `Fetch.returns` is the
value the SDK call returned, `Fetch.raises` an exception (network or
parse) thrown anywhere inside the method's `try` block, carrying
`str(e)`.  A method whose Lean model returns `Except.error msg` raises an
unhandled exception with message `msg` to its caller. -/

/-- Outcome of one remote interaction. -/
inductive Fetch (α : Type)
  | raises (msg : String)
  | returns (a : α)
deriving DecidableEq

/-- The `"filled"` sub-dict of a venue order-status entry; each field is
`none` when the corresponding key is absent. -/
structure FilledData where
  oid : Option Nat
  totalSz : Option ℚ
  avgPx : Option ℚ
deriving DecidableEq

/-- One entry of `response.data.statuses`.  `resting = some x` models a
present `"resting"` key whose `"oid"` lookup gives `x`. -/
structure StatusEntry where
  resting : Option (Option Nat)
  filled : Option FilledData
deriving DecidableEq

/-- The venue's top-level order response: `result.get("status")`,
`result.response.data.statuses` (`none` when any link of the chain is
missing, in which case the source substitutes the default `[{}]`), and
`result.response.error`. -/
structure VenueResp where
  status : Option String
  statuses : Option (List StatusEntry)
  error : Option String
deriving DecidableEq

/-- The `try` body of `HyperliquidExecutor.place_order`; `Except.error`
is an exception escaping the body. -/
def hl_place_order_try (o : OrderReq) (ts : Nat) (venue : Fetch VenueResp) :
    Except String (ExecResult Nat String) :=
  match o.order_type, o.price with
  | .limit, none =>
    -- early rejection: the venue is never contacted
    .ok ⟨false, none, 0, 0, "rejected", ts, some "Limit price required for limit orders"⟩
  | _, _ =>
    match venue with
    | .raises msg => .error msg
    | .returns result =>
      if result.status = some "ok" then
        match result.statuses.getD [⟨none, none⟩] with
        | [] =>
          .ok ⟨false, none, 0, 0, "rejected", ts, some (result.error.getD "Unknown error")⟩
        | status :: _ =>
          match status.resting with
          | some oid =>
            .ok ⟨true, oid, 0, o.price.getD 0, "open", ts, none⟩
          | none =>
            match status.filled with
            | some filled_data =>
              .ok ⟨true, filled_data.oid, filled_data.totalSz.getD o.size,
                filled_data.avgPx.getD (o.price.getD 0), "filled", ts, none⟩
            | none =>
              .ok ⟨true, none, 0, o.price.getD 0, "open", ts, none⟩
      else
        .ok ⟨false, none, 0, 0, "rejected", ts, some (result.error.getD "Unknown error")⟩

/-- `HyperliquidExecutor.place_order`: the `try` body wrapped in the
`except Exception` handler that converts any exception to a returned
result with `status="error"`. -/
def hl_place_order (o : OrderReq) (ts : Nat) (venue : Fetch VenueResp) :
    Except String (ExecResult Nat String) :=
  match hl_place_order_try o ts venue with
  | .error e => .ok ⟨false, none, 0, 0, "error", ts, some e⟩
  | .ok r => .ok r

/-- One `position.get("position", {})` dict from the venue user-state
snapshot; a field is `none` when its key is absent (the empty dict is the
all-`none` record). -/
structure HLPosData where
  coin : Option String
  szi : Option ℚ
  entryPx : Option ℚ
  liquidationPx : Option ℚ
  unrealizedPnl : Option ℚ
  leverage_value : Option ℚ
deriving DecidableEq

/-- The venue user-state snapshot: `user_state.get("assetPositions", [])`
with each wrapper already projected to its `"position"` dict. -/
structure HLUserState where
  assetPositions : List HLPosData
deriving DecidableEq

/-- The `for position in ...` loop: first entry whose `coin` equals the
asset. -/
def findPosition (asset : String) : List HLPosData → Option HLPosData
  | [] => none
  | p :: rest => if p.coin = some asset then some p else findPosition asset rest

/-- `HyperliquidExecutor.get_position`.  The `except` clause re-raises a
`RuntimeError`, modelled as `Except.error`: the exception propagates to
the caller. -/
def hl_get_position (asset : String) (fetch : Fetch HLUserState) :
    Except String PositionView :=
  match fetch with
  | .raises msg => .error ("Error fetching position: " ++ msg)
  | .returns user_state =>
    match findPosition asset user_state.assetPositions with
    | some pos_data =>
      .ok ⟨asset, pos_data.szi.getD 0, pos_data.entryPx.getD 0,
        pos_data.unrealizedPnl.getD 0,
        (match pos_data.liquidationPx with
         | some v => if v = 0 then none else some v
         | none => none),
        pos_data.leverage_value.getD 1⟩
    | none => .ok ⟨asset, 0, 0, 0, none, 1⟩

example :
    ((SimState.init 10000 (1/1000)).place_order
      ⟨"BTC", .buy, 1/10, .market, some 50000, false⟩ "a" 0).2.balance = 4995 := by
  norm_num [SimState.place_order, SimState.market_order, SimState.init, refPrice]

example :
    ((SimState.init 10000 (1/1000)).place_order
      ⟨"BTC", .buy, 1/10, .market, some 50000, false⟩ "a" 0).1.success = true := by
  norm_num [SimState.place_order, SimState.market_order, SimState.init, refPrice]

/-! ## Characterisation lemmas for the simulated `place_order` -/

lemma market_order_buy_reject (s : SimState) (a : String) (sz : ℚ) (p : Option ℚ)
    (ro : Bool) (oid : String) (ts : Nat)
    (h : sz * (refPrice p * (1 + s.slippage)) > s.balance) :
    s.market_order ⟨a, .buy, sz, .market, p, ro⟩ oid ts =
      (⟨false, some oid, 0, 0, "rejected", ts,
        some (SimError.insufficientBalance (sz * (refPrice p * (1 + s.slippage)))
          s.balance)⟩, s) := by
  simp [SimState.market_order, h]

lemma market_order_buy_fill (s : SimState) (a : String) (sz : ℚ) (p : Option ℚ)
    (ro : Bool) (oid : String) (ts : Nat)
    (h : ¬ sz * (refPrice p * (1 + s.slippage)) > s.balance) :
    s.market_order ⟨a, .buy, sz, .market, p, ro⟩ oid ts =
      (⟨true, some oid, sz, refPrice p * (1 + s.slippage), "filled", ts, none⟩,
       { s with
         positions := updatePositions s.positions a
           ⟨s.posSize a + sz,
            if s.posSize a + sz > 0 then
              (s.posSize a * s.posEntry a + sz * (refPrice p * (1 + s.slippage)))
                / (s.posSize a + sz)
            else refPrice p * (1 + s.slippage)⟩
         balance := s.balance - sz * (refPrice p * (1 + s.slippage))
         trade_count := s.trade_count + 1
         order_history := s.order_history
           ++ [⟨true, some oid, sz, refPrice p * (1 + s.slippage), "filled", ts, none⟩] }) := by
  simp [SimState.market_order, h, SimState.posSize, SimState.posEntry]

lemma market_order_sell (s : SimState) (a : String) (sz : ℚ) (p : Option ℚ)
    (ro : Bool) (oid : String) (ts : Nat) :
    s.market_order ⟨a, .sell, sz, .market, p, ro⟩ oid ts =
      (⟨true, some oid, sz, refPrice p * (1 - s.slippage), "filled", ts, none⟩,
       { s with
         positions := updatePositions s.positions a
           ⟨s.posSize a - sz, s.posEntry a⟩
         balance := s.balance + sz * (refPrice p * (1 - s.slippage))
         trade_count := s.trade_count + 1
         order_history := s.order_history
           ++ [⟨true, some oid, sz, refPrice p * (1 - s.slippage), "filled", ts, none⟩] }) := by
  simp [SimState.market_order, SimState.posSize, SimState.posEntry]

lemma place_order_market (s : SimState) (a : String) (side : Side) (sz : ℚ)
    (p : Option ℚ) (ro : Bool) (oid : String) (ts : Nat) :
    s.place_order ⟨a, side, sz, .market, p, ro⟩ oid ts =
      s.market_order ⟨a, side, sz, .market, p, ro⟩ oid ts := rfl

lemma sell_ne_buy : (Side.sell = Side.buy) = False := by simp

/-- The slippage setting is never mutated by an order. -/
lemma market_order_slippage (s : SimState) (o : OrderReq) (oid : String) (ts : Nat) :
    (s.market_order o oid ts).2.slippage = s.slippage := by
  simp only [SimState.market_order]
  split_ifs <;> rfl

/-- Positions of other assets are never touched by an order. -/
lemma market_order_positions_ne (s : SimState) (o : OrderReq) (oid : String) (ts : Nat)
    (b : String) (h : b ≠ o.asset) :
    (s.market_order o oid ts).2.positions b = s.positions b := by
  simp only [SimState.market_order]
  split_ifs <;> simp [updatePositions, h]

/-- An order leaves the traded asset's position entry either untouched or
written; it never deletes it. -/
lemma market_order_positions_isSome (s : SimState) (o : OrderReq) (oid : String) (ts : Nat)
    (b : String) (h : (s.positions b).isSome = true) :
    ((s.market_order o oid ts).2.positions b).isSome = true := by
  simp only [SimState.market_order]
  split_ifs <;> simp only [updatePositions] <;> (try split_ifs) <;> simp [h]

/-- The result/state invariant asserted by the spec for `place_order`
results on every backend. -/
def resultInvariant {ι ε : Type} (r : ExecResult ι ε) : Prop :=
  (r.success = true → r.error = none) ∧
  ((r.status = "rejected" ∨ r.status = "error") → r.success = false)

lemma hl_try_ok_invariant (o : OrderReq) (ts : Nat) (venue : Fetch VenueResp)
    (r : ExecResult Nat String) (h : hl_place_order_try o ts venue = .ok r) :
    resultInvariant r := by
  unfold hl_place_order_try at h
  repeat' split at h
  all_goals (try injection h with h)
  all_goals (try subst h)
  all_goals simp_all [resultInvariant]

/-! ## Claim theorems -/

/-- C9: on the simulated backend, a limit order produces exactly the same
result and state as the market order with the same asset, side, size,
price and reduce_only arguments (here the fresh order id and timestamp
are passed in explicitly, so the results agree on the nose). -/
theorem sim_limit_executes_as_market (s : SimState) (o : OrderReq)
    (oid : String) (ts : Nat) :
    s.place_order { o with order_type := .limit } oid ts =
      s.place_order { o with order_type := .market } oid ts := rfl

/-- C8: the shared `close_position` on a flat position fails with
"No position to close" and issues no order (its outcome is independent of
the backend's `place_order`); on a non-flat position it issues exactly
one reduce-only market order for the absolute position size, sell when
long and buy when short. -/
theorem close_position_spec {ρ : Type}
    (get_position : String → PositionView)
    (po po₂ : String → Side → ℚ → OrderType → Option ℚ → Bool → ρ)
    (asset : String) :
    ((get_position asset).size = 0 →
      close_position get_position po asset = .failure false "No position to close" ∧
      close_position get_position po asset = close_position get_position po₂ asset) ∧
    ((get_position asset).size ≠ 0 →
      close_position get_position po asset = .placed
        (po asset (if (get_position asset).size > 0 then .sell else .buy)
          |(get_position asset).size| .market none true)) := by
  constructor <;> intro h <;> simp [close_position, h]

/-- C8 witness: both branches at concrete backends. -/
theorem close_position_spec_witness :
    ((close_position (fun a => ⟨a, 0, 0, 0, none, 1⟩)
        (fun _ _ _ _ _ _ => (0 : Nat)) "BTC" =
          .failure false "No position to close") ∧
      (close_position (fun a => ⟨a, 0, 0, 0, none, 1⟩)
        (fun _ _ _ _ _ _ => (0 : Nat)) "BTC" =
        close_position (fun a => ⟨a, 0, 0, 0, none, 1⟩)
          (fun _ _ _ _ _ _ => (1 : Nat)) "BTC")) ∧
    (close_position (fun a => ⟨a, -2, 10, 0, none, 1⟩)
        (fun a side sz ot p ro => (a, side, sz, ot, p, ro)) "BTC" =
      .placed ("BTC", Side.buy, 2, OrderType.market, none, true)) := by
  refine ⟨(close_position_spec (fun a => ⟨a, 0, 0, 0, none, 1⟩)
    (fun _ _ _ _ _ _ => (0 : Nat)) (fun _ _ _ _ _ _ => (1 : Nat)) "BTC").1 rfl, ?_⟩
  have h := (close_position_spec (fun a => ⟨a, -2, 10, 0, none, 1⟩)
    (fun a side sz ot p ro => (a, side, sz, ot, p, ro))
    (fun a side sz ot p ro => (a, side, sz, ot, p, ro)) "BTC").2 (by norm_num)
  simpa using h

/-- C1 (amended): the live backend rejects a limit order without a price
(success = false, status = "rejected", descriptive error) without
contacting the venue — the result is the same for every venue behaviour;
the simulated backend performs no such validation (see the
counterexample), and neither backend validates the order size. -/
theorem hl_limit_without_price_rejected (o : OrderReq) (ts : Nat)
    (venue : Fetch VenueResp)
    (hot : o.order_type = .limit) (hp : o.price = none) :
    hl_place_order o ts venue =
      .ok ⟨false, none, 0, 0, "rejected", ts,
        some "Limit price required for limit orders"⟩ := by
  rcases o with ⟨a, side, sz, ot, p, ro⟩
  cases hot
  cases hp
  rfl

/-- C1 witness: a concrete limit order without a price, against a venue
that would raise, is rejected locally. -/
theorem hl_limit_without_price_rejected_witness :
    hl_place_order ⟨"BTC", .buy, 1, .limit, none, false⟩ 3 (.raises "net down") =
      .ok ⟨false, none, 0, 0, "rejected", 3,
        some "Limit price required for limit orders"⟩ :=
  hl_limit_without_price_rejected _ 3 _ rfl rfl

/-- C1 counterexample: on the simulated backend an order with size 0
(hence size ≤ 0) is not rejected — it fills with success = true and
mutates the backend state (the trade counter increments). -/
theorem sim_zero_size_order_fills :
    (((SimState.init 10000 (1/1000)).place_order
        ⟨"BTC", .buy, 0, .market, some 50000, false⟩ "oid0" 0).1.success = true) ∧
    (((SimState.init 10000 (1/1000)).place_order
        ⟨"BTC", .buy, 0, .market, some 50000, false⟩ "oid0" 0).1.status = "filled") ∧
    (((SimState.init 10000 (1/1000)).place_order
        ⟨"BTC", .buy, 0, .market, some 50000, false⟩ "oid0" 0).2.trade_count = 1) := by
  norm_num [SimState.place_order, SimState.market_order, SimState.init, refPrice]

/-- C6 (amended): the live `place_order` returns a value for every venue
behaviour; a venue/network/parse exception inside a market-order call is
converted to a returned result with status "error" carrying the
exception's message; `get_position`, by contrast, re-raises any such
exception as a RuntimeError ("Error fetching position: ..."), which
propagates to the caller. -/
theorem hl_exception_boundary :
    (∀ (o : OrderReq) (ts : Nat) (venue : Fetch VenueResp),
      ∃ r, hl_place_order o ts venue = .ok r) ∧
    (∀ (o : OrderReq) (ts : Nat) (msg : String), o.order_type = .market →
      hl_place_order o ts (.raises msg) =
        .ok ⟨false, none, 0, 0, "error", ts, some msg⟩) ∧
    (∀ (asset msg : String),
      hl_get_position asset (.raises msg) =
        .error ("Error fetching position: " ++ msg)) := by
  refine ⟨?_, ?_, fun _ _ => rfl⟩
  · intro o ts venue
    unfold hl_place_order
    cases hl_place_order_try o ts venue with
    | error e => exact ⟨_, rfl⟩
    | ok r => exact ⟨r, rfl⟩
  · intro o ts msg hot
    rcases o with ⟨a, side, sz, ot, p, ro⟩
    cases hot
    rfl

/-- C6 counterexample: a network exception during the live backend's
`get_position` is not returned as a status="error" value — it propagates
to the caller as a raised RuntimeError. -/
theorem hl_get_position_propagates :
    hl_get_position "BTC" (.raises "connection timeout") =
      .error "Error fetching position: connection timeout" := rfl

/-- C6 witness: a concrete raising venue call on each operation. -/
theorem hl_exception_boundary_witness :
    (hl_place_order ⟨"BTC", .buy, 1, .market, none, false⟩ 2 (.raises "boom") =
      .ok ⟨false, none, 0, 0, "error", 2, some "boom"⟩) ∧
    (hl_get_position "ETH" (.raises "oops") =
      .error ("Error fetching position: " ++ "oops")) :=
  ⟨hl_exception_boundary.2.1 ⟨"BTC", .buy, 1, .market, none, false⟩ 2 "boom" rfl,
   hl_exception_boundary.2.2 "ETH" "oops"⟩

/-- C2: every `ExecutionResult` either backend's `place_order` returns
satisfies: success implies a null error field, and a "rejected" or
"error" status implies success = false. -/
theorem place_order_result_invariant :
    (∀ (s : SimState) (o : OrderReq) (oid : String) (ts : Nat),
      resultInvariant (s.place_order o oid ts).1) ∧
    (∀ (o : OrderReq) (ts : Nat) (venue : Fetch VenueResp)
      (r : ExecResult Nat String),
      hl_place_order o ts venue = .ok r → resultInvariant r) := by
  constructor
  · intro s o oid ts
    rcases o with ⟨a, side, sz, ot, p, ro⟩
    cases ot <;> cases side <;>
      simp only [SimState.place_order, SimState.market_order] <;>
      split_ifs <;> simp [resultInvariant]
  · intro o ts venue r h
    unfold hl_place_order at h
    cases hb : hl_place_order_try o ts venue with
    | error e =>
      rw [hb] at h
      injection h with h
      subst h
      simp [resultInvariant]
    | ok r₀ =>
      rw [hb] at h
      injection h with h
      subst h
      exact hl_try_ok_invariant o ts venue r₀ hb

/-- C2 witness: the invariant at one concrete call on each backend. -/
theorem place_order_result_invariant_witness :
    resultInvariant ((SimState.init 10000 (1/1000)).place_order
      ⟨"BTC", .buy, 1/10, .market, some 50000, false⟩ "w" 0).1 ∧
    resultInvariant (⟨false, none, 0, 0, "error", 5, some "boom"⟩ :
      ExecResult Nat String) :=
  ⟨place_order_result_invariant.1 (SimState.init 10000 (1/1000))
      ⟨"BTC", .buy, 1/10, .market, some 50000, false⟩ "w" 0,
   place_order_result_invariant.2 ⟨"BTC", .buy, 1, .market, none, false⟩ 5
      (.raises "boom") _ rfl⟩

/-- C3: on the simulated backend, a buy market order whose cost
(size × reference price × (1 + slippage)) strictly exceeds the cash
balance is rejected with an error naming the required and available
funds, and the returned state is exactly the pre-call state (balance,
every position, history and counter untouched). -/
theorem sim_insufficient_balance_rejected (s : SimState) (a : String)
    (sz : ℚ) (p : Option ℚ) (ro : Bool) (oid : String) (ts : Nat)
    (h : sz * (refPrice p * (1 + s.slippage)) > s.balance) :
    s.place_order ⟨a, .buy, sz, .market, p, ro⟩ oid ts =
      (⟨false, some oid, 0, 0, "rejected", ts,
        some (SimError.insufficientBalance (sz * (refPrice p * (1 + s.slippage)))
          s.balance)⟩, s) := by
  rw [place_order_market]
  exact market_order_buy_reject s a sz p ro oid ts h

/-- C3 witness: the spec's scenario — balance 100, buy 1.0 BTC (default
reference price) — is rejected and leaves the state untouched, in
particular balance 100 and a flat position. -/
theorem sim_insufficient_balance_rejected_witness :
    ((1 : ℚ) * (refPrice none * (1 + (SimState.init 100 (1/1000)).slippage)) >
      (SimState.init 100 (1/1000)).balance) ∧
    ((SimState.init 100 (1/1000)).place_order
        ⟨"BTC", .buy, 1, .market, none, false⟩ "w" 7 =
      (⟨false, some "w", 0, 0, "rejected", 7,
        some (SimError.insufficientBalance
          (1 * (refPrice none * (1 + (SimState.init 100 (1/1000)).slippage)))
          (SimState.init 100 (1/1000)).balance)⟩,
       SimState.init 100 (1/1000))) :=
  ⟨by norm_num [refPrice, SimState.init],
   sim_insufficient_balance_rejected (SimState.init 100 (1/1000)) "BTC" 1 none false "w" 7
     (by norm_num [refPrice, SimState.init])⟩

/-- C10: on the simulated backend every sell market order succeeds with a
"filled" status, whatever the balance and whatever the asset's position
(an untraded asset gets a fresh flat record and goes short); the stored
entry price of the asset's position is unchanged, the position size
decreases by the order size, the balance increases by
size × execution price, and no other asset's position changes. -/
theorem sim_sell_always_fills (s : SimState) (a : String) (sz : ℚ)
    (p : Option ℚ) (ro : Bool) (oid : String) (ts : Nat) :
    ((s.place_order ⟨a, .sell, sz, .market, p, ro⟩ oid ts).1.success = true) ∧
    ((s.place_order ⟨a, .sell, sz, .market, p, ro⟩ oid ts).1.status = "filled") ∧
    ((s.place_order ⟨a, .sell, sz, .market, p, ro⟩ oid ts).2.balance =
      s.balance + sz * (refPrice p * (1 - s.slippage))) ∧
    ((s.place_order ⟨a, .sell, sz, .market, p, ro⟩ oid ts).2.posSize a =
      s.posSize a - sz) ∧
    ((s.place_order ⟨a, .sell, sz, .market, p, ro⟩ oid ts).2.posEntry a =
      s.posEntry a) ∧
    (∀ b, b ≠ a →
      (s.place_order ⟨a, .sell, sz, .market, p, ro⟩ oid ts).2.positions b =
        s.positions b) := by
  rw [place_order_market, market_order_sell]
  refine ⟨rfl, rfl, rfl, ?_, ?_, ?_⟩
  · simp [SimState.posSize, updatePositions]
  · simp [SimState.posEntry, updatePositions]
  · intro b hb
    simp [updatePositions, hb]

/-- C10 witness: a concrete sell on an untraded asset with balance 0
creates a short and still succeeds. -/
theorem sim_sell_always_fills_witness :
    (((SimState.init 0 0).place_order
        ⟨"BTC", .sell, 2, .market, some 10, false⟩ "w" 0).1.success = true) ∧
    (((SimState.init 0 0).place_order
        ⟨"BTC", .sell, 2, .market, some 10, false⟩ "w" 0).2.posSize "BTC" =
      (SimState.init 0 0).posSize "BTC" - 2) ∧
    (((SimState.init 0 0).place_order
        ⟨"BTC", .sell, 2, .market, some 10, false⟩ "w" 0).2.posEntry "BTC" =
      (SimState.init 0 0).posEntry "BTC") ∧
    (((SimState.init 0 0).place_order
        ⟨"BTC", .sell, 2, .market, some 10, false⟩ "w" 0).2.positions "ETH" =
      (SimState.init 0 0).positions "ETH") := by
  have h := sim_sell_always_fills (SimState.init 0 0) "BTC" 2 (some 10) false "w" 0
  exact ⟨h.1, h.2.2.2.1, h.2.2.2.2.1, h.2.2.2.2.2 "ETH" (by decide)⟩

/-- C5 (amended: the reference price must be nonzero, since a zero price
is Python-falsy and is replaced by the default reference price): with
slippage 0, buying S at price P and then selling S at price P, when the
buy is affordable, restores the cash balance and the position size to
their pre-trade values. -/
theorem sim_round_trip (s : SimState) (a : String) (S P : ℚ)
    (oid₁ oid₂ : String) (ts₁ ts₂ : Nat)
    (hslip : s.slippage = 0) (hS : 0 < S) (hP : P ≠ 0)
    (hcost : S * P ≤ s.balance) :
    (((s.place_order ⟨a, .buy, S, .market, some P, false⟩ oid₁ ts₁).2.place_order
        ⟨a, .sell, S, .market, some P, false⟩ oid₂ ts₂).2.balance = s.balance) ∧
    (((s.place_order ⟨a, .buy, S, .market, some P, false⟩ oid₁ ts₁).2.place_order
        ⟨a, .sell, S, .market, some P, false⟩ oid₂ ts₂).2.posSize a = s.posSize a) := by
  have href : refPrice (some P) = P := by simp [refPrice, hP]
  have hnc : ¬ S * (refPrice (some P) * (1 + s.slippage)) > s.balance := by
    rw [href, hslip]
    simpa using hcost
  simp only [place_order_market]
  rw [market_order_buy_fill s a S (some P) false oid₁ ts₁ hnc, market_order_sell]
  constructor
  · simp [href, hslip]
  · simp [SimState.posSize, updatePositions]

/-- C5 counterexample: at reference price P = 0 (with S = 1, balance 100,
slippage 0) the hypotheses of the claim hold (S > 0, S × P = 0 ≤ 100),
but the buy is rejected at the default price while the sell executes:
the round trip ends with balance 50100 ≠ 100 and position −1 ≠ 0. -/
theorem sim_round_trip_fails_at_price_zero :
    ((SimState.init 100 0).slippage = 0) ∧ ((0 : ℚ) < 1) ∧
    ((1 : ℚ) * 0 ≤ (SimState.init 100 0).balance) ∧
    ((SimState.init 100 0).balance = 100) ∧
    ((SimState.init 100 0).posSize "BTC" = 0) ∧
    ((((SimState.init 100 0).place_order
        ⟨"BTC", .buy, 1, .market, some 0, false⟩ "a" 0).2.place_order
        ⟨"BTC", .sell, 1, .market, some 0, false⟩ "b" 0).2.balance = 50100) ∧
    ((((SimState.init 100 0).place_order
        ⟨"BTC", .buy, 1, .market, some 0, false⟩ "a" 0).2.place_order
        ⟨"BTC", .sell, 1, .market, some 0, false⟩ "b" 0).2.posSize "BTC" = -1) := by
  norm_num [SimState.place_order, SimState.market_order, SimState.init, refPrice,
    SimState.posSize, updatePositions, sell_ne_buy]

/-- C5 witness: a concrete affordable round trip at a nonzero price. -/
theorem sim_round_trip_witness :
    ((((SimState.init 10000 0).place_order
        ⟨"BTC", .buy, 2, .market, some 5, false⟩ "a" 0).2.place_order
        ⟨"BTC", .sell, 2, .market, some 5, false⟩ "b" 1).2.balance =
      (SimState.init 10000 0).balance) ∧
    ((((SimState.init 10000 0).place_order
        ⟨"BTC", .buy, 2, .market, some 5, false⟩ "a" 0).2.place_order
        ⟨"BTC", .sell, 2, .market, some 5, false⟩ "b" 1).2.posSize "BTC" =
      (SimState.init 10000 0).posSize "BTC") :=
  sim_round_trip (SimState.init 10000 0) "BTC" 2 5 "a" "b" 0 1 rfl
    (by norm_num) (by norm_num) (by norm_num [SimState.init])

/-! ## `place_order`-level frame lemmas -/

lemma place_order_positions_ne (s : SimState) (o : OrderReq) (oid : String)
    (ts : Nat) (b : String) (h : b ≠ o.asset) :
    (s.place_order o oid ts).2.positions b = s.positions b := by
  rcases o with ⟨a', side, sz, ot, p, ro⟩
  cases ot <;> exact market_order_positions_ne _ _ _ _ _ h

lemma place_order_positions_isSome (s : SimState) (o : OrderReq) (oid : String)
    (ts : Nat) (b : String) (h : (s.positions b).isSome = true) :
    ((s.place_order o oid ts).2.positions b).isSome = true := by
  rcases o with ⟨a', side, sz, ot, p, ro⟩
  cases ot <;> exact market_order_positions_isSome _ _ _ _ _ h

lemma place_order_slippage (s : SimState) (o : OrderReq) (oid : String) (ts : Nat) :
    (s.place_order o oid ts).2.slippage = s.slippage := by
  rcases o with ⟨a', side, sz, ot, p, ro⟩
  cases ot <;> exact market_order_slippage _ _ _ _

/-- An asset never named by any order in a run stays absent from the
positions map. -/
lemma run_orders_untraded (a : String) :
    ∀ (l : List OrderReq) (s : SimState), s.positions a = none →
      (∀ o ∈ l, o.asset ≠ a) → ((s.run_orders l).2.positions a) = none := by
  intro l
  induction l with
  | nil =>
    intro s h _
    simpa [SimState.run_orders] using h
  | cons o rest ih =>
    intro s h hl
    simp only [SimState.run_orders]
    apply ih
    · have hne : a ≠ o.asset := fun he => (hl o (by simp)) he.symm
      rw [place_order_positions_ne s o "" 0 a hne]
      exact h
    · intro o' ho'
      exact hl o' (by simp [ho'])

/-- C7 (amended): `get_position` on an asset never traded returns the
zero-valued position on both backends, whatever calls precede the query;
a position entry, once created, is never deleted by any later order; and
a position driven back to size 0 still answers queries with size 0 and
unrealized PnL 0 — but its entry price retains the last buy's value
rather than resetting to 0 (see the counterexample). -/
theorem get_position_zero_record :
    (∀ (b sl : ℚ) (l : List OrderReq) (a : String),
      (∀ o ∈ l, o.asset ≠ a) →
      ((SimState.init b sl).run_orders l).2.get_position a = ⟨a, 0, 0, 0, none, 1⟩) ∧
    (∀ (a : String) (st : HLUserState),
      findPosition a st.assetPositions = none →
      hl_get_position a (.returns st) = .ok ⟨a, 0, 0, 0, none, 1⟩) ∧
    (∀ (s : SimState) (o : OrderReq) (oid : String) (ts : Nat) (a : String),
      (s.positions a).isSome = true →
      ((s.place_order o oid ts).2.positions a).isSome = true) ∧
    (∀ (s : SimState) (a : String), s.posSize a = 0 →
      (s.get_position a).size = 0 ∧ (s.get_position a).unrealized_pnl = 0) := by
  refine ⟨?_, ?_, place_order_positions_isSome, ?_⟩
  · intro b sl l a hl
    have h := run_orders_untraded a l (SimState.init b sl) rfl hl
    simp [SimState.get_position, h]
  · intro a st h
    simp [hl_get_position, h]
  · intro s a h
    cases hpos : s.positions a with
    | none => simp [SimState.get_position, hpos]
    | some pos =>
      have hsz : pos.size = 0 := by
        simpa [SimState.posSize, hpos] using h
      simp [SimState.get_position, hpos, hsz]

/-- C7 counterexample: buying 1 BTC at 100 and selling it back drives the
position to size 0, but the stored record keeps entry price 100, so
`get_position` answers with a non-zero record (entry_price = 100 ≠ 0). -/
theorem sim_flat_position_retains_entry :
    ((((SimState.init 10000 0).place_order
        ⟨"BTC", .buy, 1, .market, some 100, false⟩ "a" 0).2.place_order
        ⟨"BTC", .sell, 1, .market, some 100, false⟩ "b" 0).2.posSize "BTC" = 0) ∧
    ((((SimState.init 10000 0).place_order
        ⟨"BTC", .buy, 1, .market, some 100, false⟩ "a" 0).2.place_order
        ⟨"BTC", .sell, 1, .market, some 100, false⟩ "b" 0).2.get_position "BTC" =
      ⟨"BTC", 0, 100, 0, none, 1⟩) ∧
    ((⟨"BTC", 0, 100, 0, none, 1⟩ : PositionView) ≠ ⟨"BTC", 0, 0, 0, none, 1⟩) := by
  norm_num [SimState.place_order, SimState.market_order, SimState.init, refPrice,
    SimState.posSize, SimState.get_position, updatePositions, sell_ne_buy]

/-- C7 witness: concrete instances of every conjunct. -/
theorem get_position_zero_record_witness :
    (((SimState.init 10000 0).run_orders
        [⟨"ETH", .buy, 1, .market, some 5, false⟩]).2.get_position "BTC" =
      ⟨"BTC", 0, 0, 0, none, 1⟩) ∧
    (hl_get_position "BTC" (.returns ⟨[]⟩) = .ok ⟨"BTC", 0, 0, 0, none, 1⟩) ∧
    ((((⟨100, 100, 0, fun x => if x = "BTC" then some ⟨1, 5⟩ else none, [], 1⟩ :
        SimState).place_order ⟨"BTC", .sell, 1, .market, some 5, false⟩ "w" 0).2.positions
        "BTC").isSome = true) ∧
    (((SimState.init 5 0).get_position "BTC").size = 0 ∧
      ((SimState.init 5 0).get_position "BTC").unrealized_pnl = 0) :=
  ⟨get_position_zero_record.1 10000 0 [⟨"ETH", .buy, 1, .market, some 5, false⟩] "BTC"
      (by intro o ho; rw [List.mem_singleton] at ho; subst ho; decide),
   get_position_zero_record.2.1 "BTC" ⟨[]⟩ rfl,
   get_position_zero_record.2.2.1
      ⟨100, 100, 0, fun x => if x = "BTC" then some ⟨1, 5⟩ else none, [], 1⟩
      ⟨"BTC", .sell, 1, .market, some 5, false⟩ "w" 0 "BTC" (by simp),
   get_position_zero_record.2.2.2 (SimState.init 5 0) "BTC" rfl⟩

/-! ## Weighted-average entry price over a sequence of buys -/

/-- Buy market orders for one asset from (size, reference price) pairs. -/
def mkBuys (a : String) : List (ℚ × Option ℚ) → List OrderReq
  | [] => []
  | x :: rest => ⟨a, .buy, x.1, .market, x.2, false⟩ :: mkBuys a rest

/-- Total ordered size of a list of (size, reference price) pairs. -/
def sumSizes : List (ℚ × Option ℚ) → ℚ
  | [] => 0
  | x :: rest => x.1 + sumSizes rest

/-- Size-weighted total of the execution prices
(reference price × (1 + slippage)) of a list of buys. -/
def sumWeighted (slip : ℚ) : List (ℚ × Option ℚ) → ℚ
  | [] => 0
  | x :: rest => x.1 * (refPrice x.2 * (1 + slip)) + sumWeighted slip rest

lemma sumSizes_pos : ∀ (l : List (ℚ × Option ℚ)), l ≠ [] →
    (∀ x ∈ l, 0 < x.1) → 0 < sumSizes l
  | [], hne, _ => absurd rfl hne
  | x :: rest, _, hpos => by
    rcases eq_or_ne rest [] with hr | hr
    · subst hr
      simpa [sumSizes] using hpos x (by simp)
    · have h1 := hpos x (by simp)
      have h2 := sumSizes_pos rest hr fun y hy => hpos y (by simp [hy])
      simp only [sumSizes]
      positivity

lemma buy_step_facts (s : SimState) (a : String) (sz : ℚ) (p : Option ℚ)
    (oid : String) (ts : Nat)
    (hc : ¬ sz * (refPrice p * (1 + s.slippage)) > s.balance)
    (htot : 0 < s.posSize a + sz) :
    ((s.place_order ⟨a, .buy, sz, .market, p, false⟩ oid ts).2.posSize a
        = s.posSize a + sz) ∧
    ((s.place_order ⟨a, .buy, sz, .market, p, false⟩ oid ts).2.posEntry a
        = (s.posSize a * s.posEntry a + sz * (refPrice p * (1 + s.slippage)))
            / (s.posSize a + sz)) := by
  rw [place_order_market, market_order_buy_fill s a sz p false oid ts hc]
  constructor
  · simp [SimState.posSize, updatePositions]
  · simp [SimState.posEntry, updatePositions, htot]

/-- Running a list of buys with positive sizes from a nonnegative
position accumulates the size and, in product form, the size-weighted
execution prices into the entry price. -/
lemma run_buys_spec (a : String) :
    ∀ (l : List (ℚ × Option ℚ)) (s : SimState),
      (∀ x ∈ l, 0 < x.1) → 0 ≤ s.posSize a →
      ((s.run_orders (mkBuys a l)).1.all fun r => r.success) = true →
      ((s.run_orders (mkBuys a l)).2.posSize a = s.posSize a + sumSizes l) ∧
      ((s.run_orders (mkBuys a l)).2.posEntry a * (s.posSize a + sumSizes l)
        = s.posSize a * s.posEntry a + sumWeighted s.slippage l) := by
  intro l
  induction l with
  | nil =>
    intro s _ _ _
    simp [SimState.run_orders, mkBuys, sumSizes, sumWeighted, mul_comm]
  | cons hd tl ih =>
    intro s hpos hz hall
    have hhd : 0 < hd.1 := hpos hd (by simp)
    have htot : 0 < s.posSize a + hd.1 := add_pos_of_nonneg_of_pos hz hhd
    simp only [mkBuys, SimState.run_orders, List.all_cons, Bool.and_eq_true] at hall
    rcases hall with ⟨hsucc, htail⟩
    by_cases hc : hd.1 * (refPrice hd.2 * (1 + s.slippage)) > s.balance
    · rw [place_order_market, market_order_buy_reject s a hd.1 hd.2 false "" 0 hc] at hsucc
      simp at hsucc
    · obtain ⟨hsz, hentry⟩ := buy_step_facts s a hd.1 hd.2 "" 0 hc htot
      have hslip := place_order_slippage s ⟨a, .buy, hd.1, .market, hd.2, false⟩ "" 0
      simp only [mkBuys, SimState.run_orders]
      obtain ⟨IH1, IH2⟩ :=
        ih ((s.place_order ⟨a, .buy, hd.1, .market, hd.2, false⟩ "" 0).2)
          (fun x hx => hpos x (by simp [hx]))
          (by rw [hsz]; exact le_of_lt htot) htail
      constructor
      · rw [IH1, hsz, sumSizes]
        ring
      · have hassoc : s.posSize a + sumSizes (hd :: tl)
            = (s.place_order ⟨a, .buy, hd.1, .market, hd.2, false⟩ "" 0).2.posSize a
              + sumSizes tl := by
          rw [hsz, sumSizes]
          ring
        have key : (s.posSize a + hd.1)
            * ((s.posSize a * s.posEntry a
                + hd.1 * (refPrice hd.2 * (1 + s.slippage))) / (s.posSize a + hd.1))
            = s.posSize a * s.posEntry a + hd.1 * (refPrice hd.2 * (1 + s.slippage)) := by
          rw [mul_comm]
          exact div_mul_cancel₀ _ (ne_of_gt htot)
        rw [hassoc, IH2, hsz, hentry, hslip, key, sumWeighted]
        ring

/-- C4: on the simulated backend, a successful buy market order updates
the entry price by the weighted-average step rule (with the fallback to
the bare execution price when the resulting size is not positive); and
over any nonempty sequence of successful positive-size buys from a flat
position, the resulting entry price is the size-weighted mean of the
execution prices (reference price × (1 + slippage)) of the fills. -/
theorem sim_weighted_average_entry :
    (∀ (s : SimState) (a : String) (sz : ℚ) (p : Option ℚ) (ro : Bool)
      (oid : String) (ts : Nat),
      (s.place_order ⟨a, .buy, sz, .market, p, ro⟩ oid ts).1.success = true →
      (s.place_order ⟨a, .buy, sz, .market, p, ro⟩ oid ts).2.posEntry a =
        (if s.posSize a + sz > 0 then
          (s.posSize a * s.posEntry a + sz * (refPrice p * (1 + s.slippage)))
            / (s.posSize a + sz)
        else refPrice p * (1 + s.slippage))) ∧
    (∀ (s : SimState) (a : String) (l : List (ℚ × Option ℚ)),
      s.posSize a = 0 → l ≠ [] → (∀ x ∈ l, 0 < x.1) →
      ((s.run_orders (mkBuys a l)).1.all fun r => r.success) = true →
      (s.run_orders (mkBuys a l)).2.posEntry a =
        sumWeighted s.slippage l / sumSizes l) := by
  constructor
  · intro s a sz p ro oid ts hsucc
    by_cases hc : sz * (refPrice p * (1 + s.slippage)) > s.balance
    · rw [place_order_market, market_order_buy_reject s a sz p ro oid ts hc] at hsucc
      simp at hsucc
    · rw [place_order_market, market_order_buy_fill s a sz p ro oid ts hc]
      simp [SimState.posEntry, updatePositions]
  · intro s a l hflat hne hpos hall
    obtain ⟨h1, h2⟩ := run_buys_spec a l s hpos (by simp [hflat]) hall
    rw [hflat] at h2
    have hsum : 0 < sumSizes l := sumSizes_pos l hne hpos
    rw [eq_div_iff (ne_of_gt hsum)]
    simpa using h2

/-- C4 witness: concrete instances of both conjuncts — a single buy on a
fresh backend, and a two-buy sequence whose entry price is the
size-weighted mean 150 of fills at 100 and 200. -/
theorem sim_weighted_average_entry_witness :
    (((SimState.init 10000 0).place_order
        ⟨"BTC", .buy, 1, .market, some 100, false⟩ "w" 0).2.posEntry "BTC" =
      (if (SimState.init 10000 0).posSize "BTC" + 1 > 0 then
        ((SimState.init 10000 0).posSize "BTC" * (SimState.init 10000 0).posEntry "BTC"
          + 1 * (refPrice (some 100) * (1 + (SimState.init 10000 0).slippage)))
          / ((SimState.init 10000 0).posSize "BTC" + 1)
      else refPrice (some 100) * (1 + (SimState.init 10000 0).slippage))) ∧
    (((SimState.init 10000 0).run_orders
        (mkBuys "BTC" [(1, some 100), (1, some 200)])).2.posEntry "BTC" =
      sumWeighted (SimState.init 10000 0).slippage [(1, some 100), (1, some 200)]
        / sumSizes [(1, some 100), (1, some 200)]) := by
  constructor
  · exact sim_weighted_average_entry.1 (SimState.init 10000 0) "BTC" 1 (some 100)
      false "w" 0
      (by norm_num [SimState.place_order, SimState.market_order, SimState.init, refPrice])
  · refine sim_weighted_average_entry.2 (SimState.init 10000 0) "BTC"
      [(1, some 100), (1, some 200)] rfl (by simp) ?_ ?_
    · intro x hx
      simp only [List.mem_cons, List.not_mem_nil, or_false] at hx
      rcases hx with rfl | rfl <;> norm_num
    · norm_num [SimState.run_orders, mkBuys, SimState.place_order,
        SimState.market_order, SimState.init, refPrice, updatePositions]
